import Mathlib

/-!
Shallow embedding of the reconciliation and catalog engine of the
echoes-obsidian-chat-importer plugin (src/src/main.ts).

Text is modelled as `List Char`.  The Obsidian vault and the conversation
catalog are modelled as association lists, the import report as lists of
entries, and the per-conversation control flow of `processSingleChat`
(including its try/catch boundaries) as total functions over an explicit
`Fault` parameter that says which host operation throws, if any.

Functions from the repository's `utils` module (`isValidMessage`,
`formatTimestamp`, `formatTitle`, `generateFileName`,
`generateUniqueFileName`) are not part of the provided sources; they are
modelled from the spec and marked as such in their doc comments.  All other
definitions are direct translations of src/src/main.ts.
-/

/-- Text is modelled as a list of characters. -/
abbrev Str := List Char

/-- Boolean test that the first argument is a leading segment of the second
(the shape of the anchored comparisons done by the regexes in the source). -/
def begins : Str → Str → Bool
  | [], _ => true
  | _ :: _, [] => false
  | p :: ps, c :: cs => if p = c then begins ps cs else false

/-- Split a text at newline characters, JavaScript `split("\n")` style:
the empty text yields one empty line. -/
def splitLines : Str → List Str
  | [] => [[]]
  | c :: rest =>
    match splitLines rest with
    | [] => [[]]
    | l :: ls => if c = '\n' then [] :: l :: ls else (c :: l) :: ls

/-- Join lines with a newline separator, JavaScript `join("\n")` style. -/
def joinLines : List Str → Str
  | [] => []
  | [l] => l
  | l :: l2 :: ls => l ++ '\n' :: joinLines (l2 :: ls)

/-- Join pieces with a fixed separator text, JavaScript `join(sep)` style. -/
def joinSep (sep : Str) : List Str → Str
  | [] => []
  | [l] => l
  | l :: l2 :: ls => l ++ sep ++ joinSep sep (l2 :: ls)

/-- A decimal digit character. -/
def digitChar (d : Nat) : Char :=
  ['0', '1', '2', '3', '4', '5', '6', '7', '8', '9'].getD (d % 10) '0'

/-- Fuel-driven accumulator for `natChars`. -/
def natCharsAux : Nat → Nat → Str → Str
  | 0, _, acc => acc
  | fuel + 1, n, acc =>
    if n < 10 then digitChar n :: acc
    else natCharsAux fuel (n / 10) (digitChar (n % 10) :: acc)

/-- Decimal rendering of a natural number. -/
def natChars (n : Nat) : Str := natCharsAux (n + 1) n []

/-- Two-digit zero-padded rendering (JavaScript `padStart(2, "0")`). -/
def pad2 (n : Nat) : Str := if n < 10 then '0' :: natChars n else natChars n

/-- Modelled from the spec: `formatTimestamp` from the repository's missing
`utils` module renders a numeric timestamp (seconds since epoch) as a
display string for a given view kind ("date", "time", "prefix").  The exact
format is irrelevant to the claims; it is modelled as the view kind, a
dash, and the decimal seconds value, which is deterministic and uses only
letters, digits and a dash. -/
def formatTimestamp (t : Nat) (kind : String) : Str :=
  kind.data ++ '-' :: natChars t

/-- The "date at time" display string used in note headers and metadata
(`formatTimestamp(t, "date")` + " at " + `formatTimestamp(t, "time")`). -/
def dtAt (t : Nat) : Str :=
  formatTimestamp t "date" ++ " at ".data ++ formatTimestamp t "time"

/-- The "date time" display string used in report entries
(`formatTimestamp(t, "date")` + " " + `formatTimestamp(t, "time")`). -/
def dtSp (t : Nat) : Str :=
  formatTimestamp t "date" ++ ' ' :: formatTimestamp t "time"

/-! ## Data model (src/src/types.ts as used by main.ts) -/

/-- One part of a message's content: either a plain string or an object
with an optional `content_type` and an optional `text` field. -/
inductive ContentPart where
  | str (s : Str)
  | obj (content_type : Option String) (text : Option Str)
deriving DecidableEq

/-- The `content` object of a chat message. -/
structure MessageContent where
  content_type : String
  parts : Option (List ContentPart)
deriving DecidableEq

/-- The `author` object of a chat message. -/
structure Author where
  role : String
deriving DecidableEq

/-- One chat message. `create_time` is optional; `content` may be absent. -/
structure ChatMessage where
  id : Str
  author : Option Author
  create_time : Option Nat
  content : Option MessageContent
deriving DecidableEq

/-- One node of a conversation's `mapping` record. -/
structure MappingNode where
  id : Str
  message : Option ChatMessage
deriving DecidableEq

/-- One conversation (`Chat`), with its `mapping` as an insertion-ordered
association list. -/
structure Chat where
  id : Str
  title : Str
  create_time : Nat
  update_time : Nat
  mapping : List (Str × MappingNode)
deriving DecidableEq

/-- One catalog record (`ConversationCatalogEntry`). -/
structure CatalogEntry where
  conversationId : Str
  path : Str
  updateTime : Nat
  provider : String
deriving DecidableEq

/-- One row of the import report (`ReportEntry`). -/
structure ReportEntry where
  title : Str
  filePath : Str
  createDate : Str
  updateDate : Str
  messageCount : Option Nat
  reason : Option Str
  errorMessage : Option Str
deriving DecidableEq

/-- The `ImportReport` accumulator. -/
structure ImportReport where
  created : List ReportEntry
  updated : List ReportEntry
  skipped : List ReportEntry
  failed : List ReportEntry
  globalErrors : List (Str × Str)
deriving DecidableEq

/-- The empty report. -/
def ImportReport.empty : ImportReport := ⟨[], [], [], [], []⟩

/-- The vault: a path-to-content association list (file storage). -/
abbrev Vault := List (Str × Str)

/-- The plugin settings fields consumed by the engine. -/
structure Settings where
  archiveFolder : Str
  addDatePrefix : Bool
  dateFormat : String
deriving DecidableEq

/-- The plugin state mutated during one batch: conversation catalog, vault
contents and the import report.  (The purely statistical counters of the
source are elided; no claim mentions them.) -/
structure PluginState where
  catalog : List (Str × CatalogEntry)
  vault : Vault
  report : ImportReport
deriving DecidableEq

/-- Which host operation throws while one conversation is processed.
`folderCreate` models `ensureFolderExists` failing inside
`generateFilePath`; `render` models `generateMarkdownContent` throwing
inside `createNewNote`; `write` models `writeToFile` throwing;
`readNote` models `vault.read` throwing inside `updateExistingNote`. -/
inductive Fault where
  | none
  | folderCreate
  | render
  | write
  | readNote
deriving DecidableEq

/-! ## Vault, catalog and report operations -/

/-- Look up a file's content (`getAbstractFileByPath` + `read`). -/
def lookupFile (v : Vault) (p : Str) : Option Str :=
  match v.find? (fun e => e.1 = p) with
  | some e => some e.2
  | none => Option.none

/-- Whether a file exists at a path. -/
def fileExists (v : Vault) (p : Str) : Bool := (lookupFile v p).isSome

/-- Create-or-overwrite a file (`writeToFile`). -/
def setFile (v : Vault) (p : Str) (content : Str) : Vault :=
  if fileExists v p then
    v.map (fun e => if e.1 = p then (p, content) else e)
  else v ++ [(p, content)]

/-- Look up a catalog entry by conversation id. -/
def catalogFind (cat : List (Str × CatalogEntry)) (id : Str) :
    Option CatalogEntry :=
  match cat.find? (fun e => e.1 = id) with
  | some e => some e.2
  | none => Option.none

/-- Insert or overwrite a catalog entry. -/
def catalogSet (cat : List (Str × CatalogEntry)) (id : Str)
    (entry : CatalogEntry) : List (Str × CatalogEntry) :=
  if (catalogFind cat id).isSome then
    cat.map (fun e => if e.1 = id then (id, entry) else e)
  else cat ++ [(id, entry)]

/-- `importReport.addCreated`. -/
def addCreated (r : ImportReport) (title filePath createDate updateDate : Str)
    (messageCount : Nat) : ImportReport :=
  { r with created :=
      r.created ++ [⟨title, filePath, createDate, updateDate,
        some messageCount, Option.none, Option.none⟩] }

/-- `importReport.addUpdated`. -/
def addUpdated (r : ImportReport) (title filePath createDate updateDate : Str)
    (messageCount : Nat) : ImportReport :=
  { r with updated :=
      r.updated ++ [⟨title, filePath, createDate, updateDate,
        some messageCount, Option.none, Option.none⟩] }

/-- `importReport.addSkipped`. -/
def addSkipped (r : ImportReport) (title filePath createDate updateDate : Str)
    (messageCount : Nat) (reason : Str) : ImportReport :=
  { r with skipped :=
      r.skipped ++ [⟨title, filePath, createDate, updateDate,
        some messageCount, some reason, Option.none⟩] }

/-- `importReport.addFailed`. -/
def addFailed (r : ImportReport) (title filePath createDate updateDate : Str)
    (errorMessage : Str) : ImportReport :=
  { r with failed :=
      r.failed ++ [⟨title, filePath, createDate, updateDate,
        Option.none, Option.none, some errorMessage⟩] }

/-- `importReport.addError` (global errors). -/
def addError (r : ImportReport) (message details : Str) : ImportReport :=
  { r with globalErrors := r.globalErrors ++ [(message, details)] }

/-! ## Message validity and rendering -/

/-- The filter applied to content parts in `formatMessage`: keep strings,
and objects that are audio transcriptions or carry a truthy `text`. -/
def partKeep : ContentPart → Bool
  | ContentPart.str _ => true
  | ContentPart.obj ct txt =>
    decide (ct = some "audio_transcription") ||
      (match txt with
       | some t => decide (t ≠ [])
       | Option.none => false)

/-- The text a kept part contributes (`typeof part === "string" ? part :
part.text || ""`). -/
def partText : ContentPart → Str
  | ContentPart.str s => s
  | ContentPart.obj _ txt =>
    match txt with
    | some t => t
    | Option.none => []

/-- Modelled from the spec: `isValidMessage` from the repository's missing
`utils` module.  Per the spec a message is valid only if it yields at least
one non-empty textual part after filtering out unrenderable part types. -/
def isValidMessage (m : ChatMessage) : Bool :=
  match m.content with
  | Option.none => false
  | some c =>
    match c.parts with
    | Option.none => false
    | some ps => ps.any (fun p => partKeep p && decide (partText p ≠ []))

/-- `isValidMessage` lifted to the optional message of a mapping node
(JavaScript passes a possibly-undefined `msg.message`). -/
def isValidOptMessage : Option ChatMessage → Bool
  | some m => isValidMessage m
  | Option.none => false

/-- The number of valid messages of a conversation
(`Object.values(chat.mapping).filter(msg => isValidMessage(msg.message)).length`). -/
def countValidMessages (chat : Chat) : Nat :=
  (chat.mapping.filter (fun pr => isValidOptMessage pr.2.message)).length

/-- The author attribution computed in `formatMessage`: "User" for role
"user", "ChatGPT" for any other present role, "Unknown" when the author
object is missing. -/
def authorLabel : Option Author → Str
  | some a => if a.role = "user" then "User".data else "ChatGPT".data
  | Option.none => "Unknown".data

/-- The message timestamp used by `formatMessage`
(`message.create_time || Date.now() / 1000`; a `0` timestamp is falsy). -/
def msgTime (now : Nat) : Option Nat → Nat
  | some t => if t = 0 then now else t
  | Option.none => now

/-- Quote a (possibly multi-line) text line by line with a quote marker
(`messageText.split("\n").map(line => quoteChar + " " + line).join("\n")`). -/
def quoteLines (qc : Str) (text : Str) : Str :=
  joinLines ((splitLines text).map (fun l => qc ++ ' ' :: l))

/-- The opening delimiter of a message marker, `<!-- UID: `. -/
def uidOpen : Str :=
  '<' :: '!' :: '-' :: '-' :: ' ' :: 'U' :: 'I' :: 'D' :: ':' :: ' ' :: []

/-- The closing delimiter of a message marker, ` -->`. -/
def closeMark : Str := ' ' :: '-' :: '-' :: '>' :: []

/-- The id embedded in a message's marker
(`message.id || "unknown"`; an empty id is falsy). -/
def ridOf (m : ChatMessage) : Str :=
  if m.id = [] then "unknown".data else m.id

/-- The heading level of a message (`###` for the user, `####` otherwise). -/
def headingLevelOf (m : ChatMessage) : Str :=
  if authorLabel m.author = "User".data then "###".data else "####".data

/-- The quote marker of a message (`>` for the user, `>>` otherwise). -/
def quoteCharOf (m : ChatMessage) : Str :=
  if authorLabel m.author = "User".data then ">".data else ">>".data

/-- The displayed message timestamp (`date at time`). -/
def msgTimeStr (now : Nat) (m : ChatMessage) : Str :=
  formatTimestamp (msgTime now m.create_time) "date" ++ " at ".data ++
    formatTimestamp (msgTime now m.create_time) "time"

/-- The joined text of a message's kept parts
(`parts.filter(...).map(...).join("\n")`). -/
def msgText (parts : List ContentPart) : Str :=
  joinLines ((parts.filter partKeep).map partText)

/-- The quoted body of a message, or its placeholder when the content is
missing or yields no text. -/
def msgBody (m : ChatMessage) : Str :=
  match m.content with
  | some c =>
    match c.parts with
    | some parts =>
      if msgText parts ≠ [] then quoteLines (quoteCharOf m) (msgText parts)
      else quoteCharOf m ++ " [No text content]".data
    | Option.none => quoteCharOf m ++ " [No content]".data
  | Option.none => quoteCharOf m ++ " [No content]".data

/-- Everything `formatMessage` emits before the marker: the attribution
heading line and the quoted body (or a placeholder), plus the newline
that precedes the marker. -/
def msgPre (now : Nat) (m : ChatMessage) : Str :=
  headingLevelOf m ++ ' ' :: authorLabel m.author ++ ", on ".data ++
    msgTimeStr now m ++ ";\n".data ++ msgBody m ++ '\n' :: []

/-- Everything `formatMessage` emits after the marker: the newline closing
the marker line, the "---" separator after assistant messages, and the
final blank lines. -/
def msgPost (m : ChatMessage) : Str :=
  '\n' :: (if authorLabel m.author = "ChatGPT".data then "\n---\n".data else []) ++
    "\n\n".data

/-- `formatMessage`: heading and body, the `<!-- UID: ... -->` marker line,
then the trailing separator text. -/
def formatMessage (now : Nat) (m : ChatMessage) : Str :=
  msgPre now m ++ uidOpen ++ ridOf m ++ closeMark ++ msgPost m

/-- `generateMessagesContent`: concatenation of `formatMessage` over the
mapping's valid messages, in stored order. -/
def genMsgs (now : Nat) : List (Str × MappingNode) → Str
  | [] => []
  | (_, node) :: rest =>
    (match node.message with
     | some m => if isValidMessage m then formatMessage now m else []
     | Option.none => []) ++ genMsgs now rest

/-- Modelled from the spec: `formatTitle` from the repository's missing
`utils` module produces a display title; an empty title falls back to a
generic placeholder. -/
def formatTitle (title : Str) : Str :=
  if title = [] then "Untitled".data else title

/-- The plugin's manifest id as it appears in note headers (`nexus:` line);
the manifest is not part of the provided sources. -/
def manifestId : Str := "nexus-ai-chat-importer".data

/-- `generateHeader`: the note's front matter and title block. -/
def generateHeader (title conversationId createTimeStr updateTimeStr : Str) :
    Str :=
  "---\nnexus: ".data ++ manifestId ++
    "\nprovider: chatgpt\naliases: \"".data ++ title ++
    "\"\nconversation_id: ".data ++ conversationId ++
    "\ncreate_time: ".data ++ createTimeStr ++
    "\nupdate_time: ".data ++ updateTimeStr ++
    "\n---\n\n# Title: ".data ++ title ++
    "\n\nCreated: ".data ++ createTimeStr ++
    "\nLast Updated: ".data ++ updateTimeStr ++ "\n\n\n".data

/-- `generateMarkdownContent`: header followed by every valid message. -/
def generateMarkdownContent (now : Nat) (chat : Chat) : Str :=
  generateHeader (formatTitle chat.title) chat.id
    (dtAt chat.create_time) (dtAt chat.update_time) ++
    genMsgs now chat.mapping

/-! ## Scanning rendered notes for message markers

`extractMessageUIDsFromNote` runs `/<!-- UID: (.*?) -->/g` over the note:
it collects, left to right and without overlap, every lazily captured text
between `<!-- UID: ` and the first following ` -->` on the same line. -/

/-- Lazily capture the text up to the first ` -->`; `.` in the regex does
not match a newline, so a newline before any terminator aborts the match. -/
def captureUID : Str → Option (Str × Str)
  | [] => Option.none
  | c :: rest =>
    if begins closeMark (c :: rest) then some ([], List.drop 3 rest)
    else if c = '\n' then Option.none
    else
      match captureUID rest with
      | some (cap, r) => some (c :: cap, r)
      | Option.none => Option.none

/-- Fuel-driven scan for `<!-- UID: ... -->` matches; the fuel only needs
to exceed the text length. -/
def scanUIDs : Nat → Str → List Str
  | 0, _ => []
  | _, [] => []
  | fuel + 1, c :: rest =>
    if begins uidOpen (c :: rest) then
      match captureUID (List.drop 9 rest) with
      | some (cap, rest2) => cap :: scanUIDs fuel rest2
      | Option.none => scanUIDs fuel rest
    else scanUIDs fuel rest

/-- `extractMessageUIDsFromNote`. -/
def extractUIDs (s : Str) : List Str := scanUIDs s.length s

/-- The marker ids of a conversation's valid messages, in stored order. -/
def validIds (chat : Chat) : List Str :=
  chat.mapping.filterMap (fun pr =>
    match pr.2.message with
    | some m => if isValidMessage m then some (ridOf m) else Option.none
    | Option.none => Option.none)

/-- A character that cannot interfere with marker scanning or line
structure: not `<`, not `>`, not a newline. -/
def charSafe (c : Char) : Prop := c ≠ '<' ∧ c ≠ '>' ∧ c ≠ '\n'

instance (c : Char) : Decidable (charSafe c) := by
  unfold charSafe; infer_instance

/-- No `<` occurs in the text (the scanner can only start a match at a
`<`). -/
def noLT (s : Str) : Prop := ∀ c ∈ s, c ≠ '<'

instance (s : Str) : Decidable (noLT s) := by
  unfold noLT; infer_instance

/-- Boolean: no `<` occurs in the text. -/
def noLTb (s : Str) : Bool := s.all (fun c => !(decide (c = '<')))

/-- Boolean: every text a content part of the message can contribute is
free of `<`. -/
def partsNoLTb (m : ChatMessage) : Bool :=
  match m.content with
  | Option.none => true
  | some mc =>
    match mc.parts with
    | Option.none => true
    | some ps => ps.all (fun p => noLTb (partText p))

/-- Boolean hygiene condition on a mapping node, required only of its valid
message: a non-empty marker-safe id (no `>`, no newline) and `<`-free part
texts. -/
def nodeSafeB (node : MappingNode) : Bool :=
  match node.message with
  | Option.none => true
  | some m =>
    !(isValidMessage m) ||
      (decide (m.id ≠ []) &&
        m.id.all (fun c => !(decide (c = '>')) && !(decide (c = '\n'))) &&
        partsNoLTb m)

/-! ## Metadata rewriting (`updateMetadata`) -/

/-- The line pattern of the front-matter revision field,
`/^update_time: .*$/m`. -/
def updPat : Str :=
  'u' :: 'p' :: 'd' :: 'a' :: 't' :: 'e' :: '_' :: 't' :: 'i' :: 'm' :: 'e' ::
    ':' :: ' ' :: []

/-- The line pattern of the human-readable revision line,
`/^Last Updated: .*$/m`. -/
def lastPat : Str :=
  'L' :: 'a' :: 's' :: 't' :: ' ' :: 'U' :: 'p' :: 'd' :: 'a' :: 't' :: 'e' ::
    'd' :: ':' :: ' ' :: []

/-- Replace the first line satisfying the predicate (a non-global `replace`
with a `^...$` multiline pattern rewrites exactly the first matching line). -/
def replaceFirstLine (p : Str → Bool) (repl : Str) : List Str → List Str
  | [] => []
  | l :: ls => if p l then repl :: ls else l :: replaceFirstLine p repl ls

/-- Index of the first line satisfying a predicate. -/
def firstMatch (p : Str → Bool) : List Str → Option Nat
  | [] => Option.none
  | l :: ls => if p l then some 0 else (firstMatch p ls).map (· + 1)

/-- The line-level effect of `updateMetadata`: rewrite the first
`update_time: ...` line, then the first `Last Updated: ...` line. -/
def metaLines (t : Nat) (L : List Str) : List Str :=
  replaceFirstLine (fun l => begins lastPat l) (lastPat ++ dtAt t)
    (replaceFirstLine (fun l => begins updPat l) (updPat ++ dtAt t) L)

/-- `updateMetadata`: rewrite the first `update_time: ...` line and the
first `Last Updated: ...` line to the new display timestamp. -/
def updateMetadata (content : Str) (updateTime : Nat) : Str :=
  joinLines (metaLines updateTime (splitLines content))

/-! ## Message merging -/

/-- `getNewMessages`: the valid messages of nodes whose (truthy) node id is
not among the ids already present in the note. -/
def getNewMessages (chat : Chat) (existingIds : List Str) : List ChatMessage :=
  chat.mapping.filterMap (fun pr =>
    match pr.2.message with
    | some m =>
      if pr.2.id ≠ [] ∧ pr.2.id ∉ existingIds ∧ isValidMessage m = true
      then some m else Option.none
    | Option.none => Option.none)

/-- `formatNewMessages`: render and join the delta messages. -/
def formatNewMessages (now : Nat) (messages : List ChatMessage) : Str :=
  joinSep "\n\n".data
    ((messages.map (formatMessage now)).filter (fun s => s ≠ []))

/-- The full text `updateExistingNote` computes from the original note:
metadata rewritten, and the rendered delta appended when it is non-empty. -/
def mergedNoteContent (now : Nat) (chat : Chat) (original : Str) : Str :=
  let c0 := updateMetadata original chat.update_time
  let newMsgs := getNewMessages chat (extractUIDs c0)
  if 0 < newMsgs.length then c0 ++ "\n\n".data ++ formatNewMessages now newMsgs
  else c0

/-! ## Path resolution (`generateFilePath`) -/

/-- Modelled from the spec: the year/month/day bucketing derives from
`createTime` through the host's Date API (not part of this repository);
modelled as the standard UTC civil-calendar computation on days since the
epoch. -/
def civilFromDays (z : Nat) : Nat × Nat × Nat :=
  let z' := z + 719468
  let era := z' / 146097
  let doe := z' % 146097
  let yoe := (doe - doe / 1460 + doe / 36524 - doe / 146097) / 365
  let y := yoe + era * 400
  let doy := doe - (365 * yoe + yoe / 4 - yoe / 100)
  let mp := (5 * doy + 2) / 153
  let d := doy - (153 * mp + 2) / 5 + 1
  let m := if mp < 10 then mp + 3 else mp - 9
  (if m ≤ 2 then y + 1 else y, m, d)

/-- Modelled from the spec: `generateFileName` from the repository's
missing `utils` module sanitizes the title into a filesystem-safe name;
empty or fully unsafe titles fall back to a generic placeholder. -/
def generateFileName (title : Str) : Str :=
  let s := title.filter (fun c =>
    ¬ (c = '/' ∨ c = '\\' ∨ c = ':' ∨ c = '*' ∨ c = '?' ∨ c = '"' ∨
       c = '<' ∨ c = '>' ∨ c = '|'))
  if s = [] then "Untitled".data else s

/-- Fuel-driven search for a free disambiguated path. -/
def uniquePathGo (v : Vault) (p : Str) : Nat → Nat → Str
  | 0, n => p ++ " (".data ++ natChars n ++ ")".data
  | fuel + 1, n =>
    let cand := p ++ " (".data ++ natChars n ++ ")".data
    if fileExists v cand then uniquePathGo v p fuel (n + 1) else cand

/-- Modelled from the spec: `generateUniqueFileName` from the repository's
missing `utils` module appends the smallest disambiguating numeric suffix
that makes the path free; deterministic given the existing paths. -/
def uniquePath (v : Vault) (p : Str) : Str :=
  uniquePathGo v p (v.length + 1) 1

/-- `generateFilePath`: year/month folder, sanitized (optionally
date-prefixed) file name, and collision disambiguation.  `ensureFolderExists`
failure (the `folderCreate` fault) raises, which the caller catches. -/
def generateFilePathF (v : Vault) (settings : Settings) (title : Str)
    (createdTime : Nat) (fault : Fault) : Except Str Str :=
  if fault = Fault.folderCreate then
    Except.error "Failed to ensure folder exists.".data
  else
    let c := civilFromDays (createdTime / 86400)
    let folderPath :=
      settings.archiveFolder ++ '/' :: natChars c.1 ++ '/' :: pad2 c.2.1
    let fileName := generateFileName title ++ ".md".data
    let fileName :=
      if settings.addDatePrefix then
        (if settings.dateFormat = "YYYY-MM-DD" then
          natChars c.1 ++ '-' :: pad2 c.2.1 ++ '-' :: pad2 c.2.2
        else if settings.dateFormat = "YYYYMMDD" then
          natChars c.1 ++ pad2 c.2.1 ++ pad2 c.2.2
        else []) ++ " - ".data ++ fileName
      else fileName
    let filePath := folderPath ++ '/' :: fileName
    Except.ok (if fileExists v filePath then uniquePath v filePath else filePath)

/-! ## The reconciliation engine -/

/-- `chat.title || "Untitled"`. -/
def titleOr (chat : Chat) : Str :=
  if chat.title = [] then "Untitled".data else chat.title

/-- The error message carried by a modelled fault. -/
def faultMsg : Fault → Str
  | Fault.render => "render error".data
  | Fault.write => "write error".data
  | Fault.folderCreate => "Failed to ensure folder exists.".data
  | _ => "error".data

/-- `updateExistingNote`.  Its own try/catch swallows every exception (the
`readNote` and `write` faults): the error is logged but the report is not
touched.  When the catalogued path resolves to no file, the `instanceof
TFile` guard fails and nothing at all happens. -/
def updateExistingNoteF (now : Nat) (st : PluginState) (chat : Chat)
    (filePath : Str) (totalMessageCount : Nat) (fault : Fault) : PluginState :=
  match lookupFile st.vault filePath with
  | Option.none => st
  | some original =>
    if fault = Fault.readNote then st
    else
      let content := mergedNoteContent now chat original
      if content ≠ original then
        if fault = Fault.write then st
        else
          { st with
            vault := setFile st.vault filePath content,
            report := addUpdated st.report (titleOr chat) filePath
              (dtSp chat.create_time) (dtSp chat.update_time)
              totalMessageCount }
      else
        { st with
          report := addSkipped st.report (titleOr chat) filePath
            (dtSp chat.create_time) (dtSp chat.update_time)
            totalMessageCount "No changes needed".data }

/-- `createNewNote`: render, write, record `created`.  On a `render` or
`write` fault the catch block records a `failed` entry and rethrows (the
second component carries the rethrown message).  The transient
`existingConversations[chat.id] = filePath` assignment of the source is
immediately superseded by `updateConversationCatalogEntry` in the caller
and is therefore not modelled separately. -/
def createNewNoteF (now : Nat) (st : PluginState) (chat : Chat)
    (filePath : Str) (fault : Fault) : PluginState × Option Str :=
  if fault = Fault.render then
    ({ st with
        report := addFailed st.report (titleOr chat) filePath
          (dtSp chat.create_time) (dtSp chat.update_time) (faultMsg fault) },
      some (faultMsg fault))
  else
    let content := generateMarkdownContent now chat
    if fault = Fault.write then
      ({ st with
          report := addFailed st.report (titleOr chat) filePath
            (dtSp chat.create_time) (dtSp chat.update_time) (faultMsg fault) },
        some (faultMsg fault))
    else
      ({ st with
          vault := setFile st.vault filePath content,
          report := addCreated st.report (titleOr chat) filePath
            (dtSp chat.create_time) (dtSp chat.update_time)
            (countValidMessages chat) },
        Option.none)

/-- `handleExistingChat`: skip when the catalogued revision is current,
otherwise merge into the existing note. -/
def handleExistingChatF (now : Nat) (st : PluginState) (chat : Chat)
    (entry : CatalogEntry) (fault : Fault) : PluginState :=
  let totalMessageCount := countValidMessages chat
  if chat.update_time ≤ entry.updateTime then
    { st with
      report := addSkipped st.report (titleOr chat) entry.path
        (formatTimestamp chat.create_time "date")
        (formatTimestamp chat.update_time "date")
        totalMessageCount "No Updates".data }
  else updateExistingNoteF now st chat entry.path totalMessageCount fault

/-- `updateConversationCatalogEntry`. -/
def updateCatalogEntry (st : PluginState) (chat : Chat) (filePath : Str) :
    PluginState :=
  { st with
    catalog := catalogSet st.catalog chat.id
      ⟨chat.id, filePath, chat.update_time, "chatgpt"⟩ }

/-- `processSingleChat`: dispatch on the catalog, with the outer catch
converting any escaped exception into a global-error report entry
(`logErrorInReport`). -/
def processSingleChatF (now : Nat) (settings : Settings) (st : PluginState)
    (chat : Chat) (fault : Fault) : PluginState :=
  match catalogFind st.catalog chat.id with
  | some entry => handleExistingChatF now st chat entry fault
  | Option.none =>
    match generateFilePathF st.vault settings chat.title chat.create_time fault with
    | Except.error e =>
      { st with
        report := addError st.report
          ("Error processing chat: ".data ++ titleOr chat) e }
    | Except.ok filePath =>
      match createNewNoteF now st chat filePath fault with
      | (st', some e) =>
        { st' with
          report := addError st'.report
            ("Error processing chat: ".data ++ titleOr chat) e }
      | (st', Option.none) => updateCatalogEntry st' chat filePath

/-- `processConversations`: process every conversation of the archive in
order; `processSingleChat` never throws, so the loop always completes. -/
def processConversationsF (now : Nat) (settings : Settings)
    (st : PluginState) : List (Chat × Fault) → PluginState
  | [] => st
  | (chat, fault) :: rest =>
    processConversationsF now settings
      (processSingleChatF now settings st chat fault) rest

/-! ## Multi-file batch ordering (`selectZipFile`) -/

/-- One selected import file: its name and the export timestamp of the
archive it came from. -/
structure FileMeta where
  name : String
  exportTime : Nat
deriving DecidableEq

/-- Lexicographic code-point comparison of texts (the shallow model of
`localeCompare` returning a non-positive value). -/
def lexLe : Str → Str → Bool
  | [], _ => true
  | _ :: _, [] => false
  | a :: as, b :: bs => if a = b then lexLe as bs else decide (a < b)

/-- The order in which `selectZipFile` processes a selection:
`files.sort((a, b) => a.name.localeCompare(b.name))`, i.e. a stable sort
by file name (localeCompare modelled as code-point order). -/
def sortedImportFiles (files : List FileMeta) : List FileMeta :=
  files.insertionSort (fun a b => lexLe a.name.data b.name.data = true)

/-! ## Concrete inputs used by witnesses and counterexamples -/

/-- A note text whose first line is an `update_time:` field and whose
second line is a `Last Updated:` line. -/
def w10content : Str := "update_time: a\nLast Updated: b\nhello".data

/-- Default-like settings used by concrete runs. -/
def settings0 : Settings := ⟨"A".data, false, "YYYY-MM-DD"⟩

/-- A catalog entry recording conversation `c1` at path `p`, last
reconciled at revision 1. -/
def entryC : CatalogEntry := ⟨"c1".data, "p".data, 1, "chatgpt"⟩

/-- Conversation `c1` at revision 1 (no newer than the catalog entry). -/
def chatOld : Chat := ⟨"c1".data, "T".data, 1, 1, []⟩

/-- Conversation `c1` at revision 2 (newer than the catalog entry), with
no messages. -/
def chatNew2 : Chat := ⟨"c1".data, "T".data, 1, 2, []⟩

/-- A one-message valid user message. -/
def msgHi : ChatMessage :=
  ⟨"m1".data, some ⟨"user"⟩, some 1,
    some ⟨"text", some [ContentPart.str "Hi".data]⟩⟩

/-- Conversation `c1` at revision 2 carrying one valid message. -/
def chatMsg : Chat :=
  ⟨"c1".data, "T".data, 1, 2, [("n1".data, ⟨"m1".data, some msgHi⟩)]⟩

/-- A conversation id that is not in any concrete catalog below. -/
def chatFresh : Chat := ⟨"c9".data, "T".data, 1, 2, []⟩

/-- The catalogued note's text in the concrete vault. -/
def noteHello : Str := "hello".data

/-- State: `c1` catalogued at `p`, and the note exists. -/
def stWithNote : PluginState :=
  ⟨[("c1".data, entryC)], [("p".data, noteHello)], ImportReport.empty⟩

/-- State: `c1` catalogued at `p`, but the note is gone. -/
def stNoNote : PluginState :=
  ⟨[("c1".data, entryC)], [], ImportReport.empty⟩

/-- Two import files whose name order disagrees with their export-time
order: `b.zip` exported first, `a.zip` exported later. -/
def filesBA : List FileMeta := [⟨"b.zip", 1⟩, ⟨"a.zip", 2⟩]

/-- A valid message whose author role is present but unrecognized. -/
def msgSys : ChatMessage :=
  ⟨"m2".data, some ⟨"system"⟩, some 1,
    some ⟨"text", some [ContentPart.str "Hi".data]⟩⟩

/-- A mapping node carrying the valid message `msgHi`. -/
def nodeHi : MappingNode := ⟨"m1".data, some msgHi⟩

/-- A mapping node whose message has no content at all. -/
def nodeNoContent : MappingNode :=
  ⟨"n1".data, some ⟨"m1".data, some ⟨"user"⟩, some 1, Option.none⟩⟩

/-- A valid message whose text itself contains a message-marker line. -/
def msgEvil : ChatMessage :=
  ⟨"m1".data, some ⟨"user"⟩, some 1,
    some ⟨"text", some [ContentPart.str "<!-- UID: zzz -->".data]⟩⟩

/-- A conversation whose single valid message embeds a marker in its
text. -/
def convEvil : Chat :=
  ⟨"c1".data, "T".data, 1, 2, [("n1".data, ⟨"m1".data, some msgEvil⟩)]⟩

/-! ## Lemmas about the text primitives -/

theorem begins_self_append (p s : Str) : begins p (p ++ s) = true := by
  induction p with
  | nil => rfl
  | cons a ps ih => simp [begins, ih]

theorem begins_true_head {a : Char} {ps : Str} {c : Char} {t : Str}
    (h : begins (a :: ps) (c :: t) = true) : a = c := by
  by_contra hne
  simp [begins, hne] at h

theorem begins_cons_false {a b : Char} (ps t : Str) (h : a ≠ b) :
    begins (a :: ps) (b :: t) = false := by
  simp [begins, h]

theorem splitLines_ne_nil (s : Str) : splitLines s ≠ [] := by
  cases s with
  | nil => simp [splitLines]
  | cons c rest =>
    simp only [splitLines]
    rcases h : splitLines rest with _ | ⟨l, ls⟩
    · simp
    · by_cases hc : c = '\n' <;> simp [hc]

theorem noNL_splitLines (s : Str) : ∀ l ∈ splitLines s, '\n' ∉ l := by
  induction s with
  | nil => intro l hl; simp [splitLines] at hl; simp [hl]
  | cons c rest ih =>
    intro l hl
    rcases h : splitLines rest with _ | ⟨l0, ls⟩
    · exact absurd h (splitLines_ne_nil rest)
    · simp only [splitLines, h] at hl
      by_cases hc : c = '\n'
      · simp [hc] at hl
        rcases hl with hl | hl | hl
        · simp [hl]
        · subst hl; exact ih l (h ▸ List.mem_cons_self l ls)
        · exact ih l (h ▸ List.mem_cons_of_mem l0 hl)
      · simp [hc] at hl
        rcases hl with hl | hl
        · subst hl
          intro hmem
          rcases List.mem_cons.mp hmem with h1 | h1
          · exact hc h1.symm
          · exact ih l0 (h ▸ List.mem_cons_self l0 ls) h1
        · exact ih l (h ▸ List.mem_cons_of_mem l0 hl)

theorem splitLines_of_noNL {l : Str} (h : '\n' ∉ l) : splitLines l = [l] := by
  induction l with
  | nil => rfl
  | cons c rest ih =>
    have hc : c ≠ '\n' := fun hc => h (hc ▸ List.mem_cons_self c rest)
    have hr : '\n' ∉ rest := fun hm => h (List.mem_cons_of_mem c hm)
    simp only [splitLines, ih hr]
    simp [fun hc2 => hc hc2]

theorem splitLines_append_nl {l : Str} (t : Str) (h : '\n' ∉ l) :
    splitLines (l ++ '\n' :: t) = l :: splitLines t := by
  induction l with
  | nil =>
    rcases ht : splitLines t with _ | ⟨l0, ls⟩
    · exact absurd ht (splitLines_ne_nil t)
    · simp [splitLines, ht]
  | cons c rest ih =>
    have hc : c ≠ '\n' := fun hc => h (hc ▸ List.mem_cons_self c rest)
    have hr : '\n' ∉ rest := fun hm => h (List.mem_cons_of_mem c hm)
    simp only [List.cons_append, splitLines, List.append_eq]
    rw [ih hr]
    simp [hc]

theorem splitLines_joinLines : ∀ L : List Str, L ≠ [] →
    (∀ l ∈ L, '\n' ∉ l) → splitLines (joinLines L) = L := by
  intro L
  induction L with
  | nil => intro h; exact absurd rfl h
  | cons l ls ih =>
    intro _ hno
    cases ls with
    | nil =>
      simpa [joinLines] using
        splitLines_of_noNL (hno l (List.mem_cons_self l []))
    | cons l2 ls2 =>
      have h1 : '\n' ∉ l := hno l (List.mem_cons_self l _)
      have h2 : ∀ x ∈ l2 :: ls2, '\n' ∉ x := fun x hx =>
        hno x (List.mem_cons_of_mem l hx)
      simp only [joinLines]
      rw [splitLines_append_nl _ h1, ih (by simp) h2]

theorem mem_splitLines {s : Str} {l : Str} (hl : l ∈ splitLines s) :
    ∀ c ∈ l, c ∈ s := by
  induction s generalizing l with
  | nil => intro c hc; simp [splitLines] at hl; simp [hl] at hc
  | cons ch rest ih =>
    intro c hc
    rcases h : splitLines rest with _ | ⟨l0, ls⟩
    · exact absurd h (splitLines_ne_nil rest)
    · simp only [splitLines, h] at hl
      by_cases hch : ch = '\n'
      · simp [hch] at hl
        rcases hl with hl | hl | hl
        · simp [hl] at hc
        · subst hl
          exact List.mem_cons_of_mem ch (ih (h ▸ List.mem_cons_self l ls) c hc)
        · exact List.mem_cons_of_mem ch (ih (h ▸ List.mem_cons_of_mem l0 hl) c hc)
      · simp [hch] at hl
        rcases hl with hl | hl
        · subst hl
          rcases List.mem_cons.mp hc with h1 | h1
          · exact h1 ▸ List.mem_cons_self ch rest
          · exact List.mem_cons_of_mem ch
              (ih (h ▸ List.mem_cons_self l0 ls) c h1)
        · exact List.mem_cons_of_mem ch (ih (h ▸ List.mem_cons_of_mem l0 hl) c hc)

theorem mem_joinLines {L : List Str} {c : Char} (hc : c ∈ joinLines L) :
    c = '\n' ∨ ∃ l ∈ L, c ∈ l := by
  induction L with
  | nil => simp [joinLines] at hc
  | cons l ls ih =>
    cases ls with
    | nil => exact Or.inr ⟨l, List.mem_cons_self l [], by simpa [joinLines] using hc⟩
    | cons l2 ls2 =>
      simp only [joinLines] at hc
      rcases List.mem_append.mp hc with h1 | h1
      · exact Or.inr ⟨l, List.mem_cons_self l _, h1⟩
      · rcases List.mem_cons.mp h1 with h2 | h2
        · exact Or.inl h2
        · rcases ih h2 with h3 | ⟨x, hx, hcx⟩
          · exact Or.inl h3
          · exact Or.inr ⟨x, List.mem_cons_of_mem l hx, hcx⟩

/-! ## Character safety of the rendered timestamps -/

theorem digitChar_safe (d : Nat) : charSafe (digitChar d) := by
  unfold digitChar
  have h : d % 10 < 10 := Nat.mod_lt _ (by omega)
  set m := d % 10 with hm
  interval_cases m <;> decide

theorem natCharsAux_safe : ∀ (fuel n : Nat) (acc : Str),
    (∀ c ∈ acc, charSafe c) → ∀ c ∈ natCharsAux fuel n acc, charSafe c := by
  intro fuel
  induction fuel with
  | zero => intro n acc hacc c hc; exact hacc c hc
  | succ f ih =>
    intro n acc hacc c hc
    simp only [natCharsAux] at hc
    by_cases hn : n < 10
    · simp [hn] at hc
      rcases hc with h1 | h1
      · exact h1 ▸ digitChar_safe n
      · exact hacc c h1
    · simp [hn] at hc
      refine ih (n / 10) (digitChar (n % 10) :: acc) ?_ c hc
      intro x hx
      rcases List.mem_cons.mp hx with h1 | h1
      · exact h1 ▸ digitChar_safe (n % 10)
      · exact hacc x h1

theorem natChars_safe (n : Nat) : ∀ c ∈ natChars n, charSafe c :=
  natCharsAux_safe (n + 1) n [] (by simp)

theorem formatTimestamp_safe (t : Nat) (kind : String)
    (hk : ∀ c ∈ kind.data, charSafe c) :
    ∀ c ∈ formatTimestamp t kind, charSafe c := by
  intro c hc
  simp only [formatTimestamp] at hc
  rcases List.mem_append.mp hc with h1 | h1
  · exact hk c h1
  · rcases List.mem_cons.mp h1 with h2 | h2
    · subst h2; decide
    · exact natChars_safe t c h2

theorem dtAt_safe (t : Nat) : ∀ c ∈ dtAt t, charSafe c := by
  intro c hc
  simp only [dtAt] at hc
  rcases List.mem_append.mp hc with h1 | h1
  · rcases List.mem_append.mp h1 with h2 | h2
    · exact formatTimestamp_safe t "date" (by decide) c h2
    · exact (by decide : ∀ x ∈ " at ".data, charSafe x) c h2
  · exact formatTimestamp_safe t "time" (by decide) c h1

theorem dtSp_safe (t : Nat) : ∀ c ∈ dtSp t, charSafe c := by
  intro c hc
  simp only [dtSp] at hc
  rcases List.mem_append.mp hc with h1 | h1
  · exact formatTimestamp_safe t "date" (by decide) c h1
  · rcases List.mem_cons.mp h1 with h2 | h2
    · subst h2; decide
    · exact formatTimestamp_safe t "time" (by decide) c h2

/-! ## Lemmas about first-matching-line replacement -/

theorem replaceFirstLine_length (p : Str → Bool) (r : Str) :
    ∀ L : List Str, (replaceFirstLine p r L).length = L.length := by
  intro L
  induction L with
  | nil => rfl
  | cons l ls ih =>
    by_cases hp : p l <;> simp [replaceFirstLine, hp, ih]

theorem replaceFirstLine_get_ne (p : Str → Bool) (r : Str) :
    ∀ (L : List Str) (i : Nat), firstMatch p L ≠ some i →
      (replaceFirstLine p r L).get? i = L.get? i := by
  intro L
  induction L with
  | nil => intro i _; rfl
  | cons l ls ih =>
    intro i hi
    by_cases hp : p l
    · simp only [replaceFirstLine, hp, if_true]
      cases i with
      | zero => exact absurd (by simp [firstMatch, hp]) hi
      | succ j => rfl
    · simp only [replaceFirstLine, hp, if_false]
      cases i with
      | zero => rfl
      | succ j =>
        simp only [List.get?_cons_succ]
        refine ih j (fun hj => hi ?_)
        simp [firstMatch, hp, hj]

theorem firstMatch_replace_other (p1 p2 : Str → Bool) (r1 : Str)
    (hd : ∀ l, p1 l = true → p2 l = false) (hr : p2 r1 = false) :
    ∀ L : List Str, firstMatch p2 (replaceFirstLine p1 r1 L) = firstMatch p2 L := by
  intro L
  induction L with
  | nil => rfl
  | cons l ls ih =>
    by_cases hp : p1 l
    · have h2 : p2 l = false := hd l hp
      simp [replaceFirstLine, firstMatch, hp, hr, h2]
    · by_cases h2 : p2 l
      · simp [replaceFirstLine, firstMatch, hp, h2]
      · simp [replaceFirstLine, firstMatch, hp, h2, ih]

theorem replaceFirstLine_idem (p : Str → Bool) (r : Str) (hr : p r = true) :
    ∀ L : List Str,
      replaceFirstLine p r (replaceFirstLine p r L) = replaceFirstLine p r L := by
  intro L
  induction L with
  | nil => rfl
  | cons l ls ih =>
    by_cases hp : p l
    · simp [replaceFirstLine, hp, hr]
    · simp [replaceFirstLine, hp, ih]

theorem replaceFirstLine_comm (p1 p2 : Str → Bool) (r1 r2 : Str)
    (hd : ∀ l, p1 l = true → p2 l = false) (hr2 : p1 r2 = false)
    (hr1 : p2 r1 = false) :
    ∀ L : List Str,
      replaceFirstLine p1 r1 (replaceFirstLine p2 r2 L) =
        replaceFirstLine p2 r2 (replaceFirstLine p1 r1 L) := by
  intro L
  induction L with
  | nil => rfl
  | cons l ls ih =>
    by_cases hp1 : p1 l
    · have h2 : p2 l = false := hd l hp1
      simp [replaceFirstLine, hp1, h2, hr1]
    · by_cases hp2 : p2 l
      · simp [replaceFirstLine, hp1, hp2, hr2]
      · simp [replaceFirstLine, hp1, hp2, ih]

theorem replaceFirstLine_noNL (p : Str → Bool) (r : Str) (hr : '\n' ∉ r) :
    ∀ L : List Str, (∀ l ∈ L, '\n' ∉ l) →
      ∀ l ∈ replaceFirstLine p r L, '\n' ∉ l := by
  intro L
  induction L with
  | nil => intro _ l hl; simp [replaceFirstLine] at hl
  | cons l0 ls ih =>
    intro hL l hl
    by_cases hp : p l0
    · simp only [replaceFirstLine, hp, if_true] at hl
      rcases List.mem_cons.mp hl with h1 | h1
      · exact h1 ▸ hr
      · exact hL l (List.mem_cons_of_mem l0 h1)
    · simp only [replaceFirstLine, hp, if_false] at hl
      rcases List.mem_cons.mp hl with h1 | h1
      · exact h1 ▸ hL l0 (List.mem_cons_self l0 ls)
      · exact ih (fun x hx => hL x (List.mem_cons_of_mem l0 hx)) l h1

/-! ## The two metadata line patterns do not interfere -/

theorem begins_updPat_not_lastPat (l : Str) (h : begins updPat l = true) :
    begins lastPat l = false := by
  cases l with
  | nil => simp [updPat, begins] at h
  | cons c t =>
    simp only [updPat] at h
    cases begins_true_head h
    simp only [lastPat]
    exact begins_cons_false _ _ (by decide)

theorem begins_lastPat_not_updPat (l : Str) (h : begins lastPat l = true) :
    begins updPat l = false := by
  cases l with
  | nil => simp [lastPat, begins] at h
  | cons c t =>
    simp only [lastPat] at h
    cases begins_true_head h
    simp only [updPat]
    exact begins_cons_false _ _ (by decide)

theorem begins_lastPat_updPat_append (s : Str) :
    begins lastPat (updPat ++ s) = false := by
  simp only [updPat, lastPat, List.cons_append]
  exact begins_cons_false _ _ (by decide)

theorem begins_updPat_lastPat_append (s : Str) :
    begins updPat (lastPat ++ s) = false := by
  simp only [updPat, lastPat, List.cons_append]
  exact begins_cons_false _ _ (by decide)

theorem noNL_updLine (t : Nat) : '\n' ∉ updPat ++ dtAt t := by
  intro h
  rcases List.mem_append.mp h with h1 | h1
  · exact absurd h1 (by decide)
  · exact (dtAt_safe t _ h1).2.2 rfl

theorem noNL_lastLine (t : Nat) : '\n' ∉ lastPat ++ dtAt t := by
  intro h
  rcases List.mem_append.mp h with h1 | h1
  · exact absurd h1 (by decide)
  · exact (dtAt_safe t _ h1).2.2 rfl

theorem metaLines_length (t : Nat) (L : List Str) :
    (metaLines t L).length = L.length := by
  simp [metaLines, replaceFirstLine_length]

theorem metaLines_noNL (t : Nat) (L : List Str) (hL : ∀ l ∈ L, '\n' ∉ l) :
    ∀ l ∈ metaLines t L, '\n' ∉ l := by
  unfold metaLines
  exact replaceFirstLine_noNL _ _ (noNL_lastLine t) _
    (replaceFirstLine_noNL _ _ (noNL_updLine t) _ hL)

theorem splitLines_updateMetadata (content : Str) (t : Nat) :
    splitLines (updateMetadata content t) = metaLines t (splitLines content) := by
  unfold updateMetadata
  apply splitLines_joinLines
  · intro hnil
    have h1 := metaLines_length t (splitLines content)
    rw [hnil] at h1
    exact splitLines_ne_nil content (List.eq_nil_of_length_eq_zero h1.symm)
  · exact metaLines_noNL t _ (noNL_splitLines content)

theorem metaLines_idem (t : Nat) (L : List Str) :
    metaLines t (metaLines t L) = metaLines t L := by
  unfold metaLines
  rw [replaceFirstLine_comm (fun l => begins updPat l) (fun l => begins lastPat l)
    (updPat ++ dtAt t) (lastPat ++ dtAt t)
    (fun l => begins_updPat_not_lastPat l)
    (begins_updPat_lastPat_append (dtAt t))
    (begins_lastPat_updPat_append (dtAt t))
    (replaceFirstLine (fun l => begins updPat l) (updPat ++ dtAt t) L)]
  rw [replaceFirstLine_idem (fun l => begins updPat l) (updPat ++ dtAt t)
    (begins_self_append updPat (dtAt t)) L]
  exact replaceFirstLine_idem (fun l => begins lastPat l) (lastPat ++ dtAt t)
    (begins_self_append lastPat (dtAt t)) _

/-- Claim C10: for every note text and update timestamp, the metadata
rewrite changes at most the first `update_time: ...` line and the first
`Last Updated: ...` line (every other line of the note is preserved, and
the line count is preserved), and the operation is idempotent: applying it
twice with the same timestamp equals applying it once. -/
theorem c10_metadata_frame_idem (content : Str) (t : Nat) :
    ((splitLines (updateMetadata content t)).length =
        (splitLines content).length ∧
      ∀ i : Nat,
        firstMatch (fun l => begins updPat l) (splitLines content) ≠ some i →
        firstMatch (fun l => begins lastPat l) (splitLines content) ≠ some i →
        (splitLines (updateMetadata content t)).get? i =
          (splitLines content).get? i) ∧
    updateMetadata (updateMetadata content t) t = updateMetadata content t := by
  refine ⟨⟨?_, ?_⟩, ?_⟩
  · rw [splitLines_updateMetadata]
    exact metaLines_length t _
  · intro i h1 h2
    rw [splitLines_updateMetadata]
    unfold metaLines
    rw [replaceFirstLine_get_ne _ _ _ i]
    · exact replaceFirstLine_get_ne _ _ _ i h1
    · rw [firstMatch_replace_other (fun l => begins updPat l)
        (fun l => begins lastPat l) (updPat ++ dtAt t)
        (fun l => begins_updPat_not_lastPat l)
        (begins_lastPat_updPat_append (dtAt t))]
      exact h2
  · calc updateMetadata (updateMetadata content t) t
        = joinLines (metaLines t (splitLines (updateMetadata content t))) := rfl
      _ = joinLines (metaLines t (metaLines t (splitLines content))) := by
            rw [splitLines_updateMetadata]
      _ = joinLines (metaLines t (splitLines content)) := by
            rw [metaLines_idem]
      _ = updateMetadata content t := rfl

/-- Witness for C10 at a concrete note: the third line (index 2) is
untouched, and the rewrite is idempotent. -/
theorem c10_witness :
    (splitLines (updateMetadata w10content 5)).get? 2 =
        (splitLines w10content).get? 2 ∧
      updateMetadata (updateMetadata w10content 5) 5 =
        updateMetadata w10content 5 :=
  ⟨(c10_metadata_frame_idem w10content 5).1.2 2 (by decide) (by decide),
    (c10_metadata_frame_idem w10content 5).2⟩

/-! ## Claim C1: the catalog is not updated on the existing-conversation path -/

/-- Claim C1 (code-bug evidence): conversation `c1` is catalogued with
`updateTime = 1` and arrives at revision 2; after `processSingleChat`
reconciles it (skipped with "No changes needed", since the note text does
not change), the catalog entry still carries `updateTime = 1`, not the
conversation's `update_time = 2` demanded by the claim.  The source calls
`updateConversationCatalogEntry` only on the new-conversation path. -/
theorem c1_catalog_not_updated :
    chatNew2.update_time = 2 ∧
    entryC.updateTime = 1 ∧
    (∃ e : ReportEntry,
      (processSingleChatF 0 settings0 stWithNote chatNew2 Fault.none).report.skipped =
        [e] ∧ e.reason = some "No changes needed".data) ∧
    (catalogFind
        (processSingleChatF 0 settings0 stWithNote chatNew2 Fault.none).catalog
        "c1".data).map CatalogEntry.updateTime = some 1 := by
  refine ⟨rfl, rfl, ⟨⟨titleOr chatNew2, "p".data, dtSp 1, dtSp 2, some 0,
    some "No changes needed".data, Option.none⟩, ?_, rfl⟩, ?_⟩ <;> decide

/-! ## Claim C2: missing catalogued note -/

/-- Claim C2 counterexample: conversation `c1` is catalogued with
`updateTime = 1 < 2 = update_time`, but the note at the catalogued path no
longer exists.  Reconciling it records no `failed` outcome at all (the
whole state is unchanged), refuting the claim that a `failed` outcome is
recorded. -/
theorem c2_counterexample :
    processSingleChatF 0 settings0 stNoNote chatNew2 Fault.none = stNoNote ∧
    (processSingleChatF 0 settings0 stNoNote chatNew2 Fault.none).report.failed.length
      = 0 := by
  constructor <;> decide

/-- Claim C2 (amended): when the catalogued path of an out-of-date
conversation no longer resolves to a note, reconciliation records no
outcome at all for it — neither `failed` nor anything else, and the note is
not recreated (the state is unchanged) — and processing of the remaining
conversations continues. -/
theorem c2_amended_no_outcome (now : Nat) (settings : Settings)
    (st : PluginState) (chat : Chat) (entry : CatalogEntry)
    (hfind : catalogFind st.catalog chat.id = some entry)
    (hupd : entry.updateTime < chat.update_time)
    (hmiss : lookupFile st.vault entry.path = Option.none) :
    processSingleChatF now settings st chat Fault.none = st ∧
    ∀ rest, processConversationsF now settings st ((chat, Fault.none) :: rest) =
      processConversationsF now settings st rest := by
  have h1 : processSingleChatF now settings st chat Fault.none = st := by
    simp only [processSingleChatF, hfind, handleExistingChatF]
    rw [if_neg (not_le.mpr hupd)]
    simp only [updateExistingNoteF, hmiss]
  exact ⟨h1, fun rest => by simp only [processConversationsF, h1]⟩

/-- Witness for the amended C2 at the concrete missing-note state. -/
theorem c2_witness :
    catalogFind stNoNote.catalog chatNew2.id = some entryC ∧
    entryC.updateTime < chatNew2.update_time ∧
    lookupFile stNoNote.vault entryC.path = Option.none ∧
    processSingleChatF 0 settings0 stNoNote chatNew2 Fault.none = stNoNote :=
  ⟨by decide, by decide, by decide,
    (c2_amended_no_outcome 0 settings0 stNoNote chatNew2 entryC
      (by decide) (by decide) (by decide)).1⟩

/-! ## Claim C4: the monotonic update gate -/

/-- Claim C4: for a catalogued conversation whose recorded revision is at
least the conversation's `update_time`, reconciliation performs no file
write (the vault is unchanged, whatever the note contains), leaves the
catalog alone, and records exactly one `skipped` outcome whose reason is
"No Updates" (the claim's "no updates" up to letter case); no other report
category changes. -/
theorem c4_monotonic_gate (now : Nat) (settings : Settings)
    (st : PluginState) (chat : Chat) (entry : CatalogEntry)
    (hfind : catalogFind st.catalog chat.id = some entry)
    (hle : chat.update_time ≤ entry.updateTime) :
    (processSingleChatF now settings st chat Fault.none).vault = st.vault ∧
    (processSingleChatF now settings st chat Fault.none).catalog = st.catalog ∧
    (∃ e : ReportEntry,
      (processSingleChatF now settings st chat Fault.none).report.skipped =
        st.report.skipped ++ [e] ∧
      e.reason = some "No Updates".data ∧
      e.reason.map (List.map Char.toLower) = some "no updates".data ∧
      e.title = titleOr chat ∧ e.filePath = entry.path) ∧
    (processSingleChatF now settings st chat Fault.none).report.created =
      st.report.created ∧
    (processSingleChatF now settings st chat Fault.none).report.updated =
      st.report.updated ∧
    (processSingleChatF now settings st chat Fault.none).report.failed =
      st.report.failed ∧
    (processSingleChatF now settings st chat Fault.none).report.globalErrors =
      st.report.globalErrors := by
  have h1 : processSingleChatF now settings st chat Fault.none =
      { st with
        report := addSkipped st.report (titleOr chat) entry.path
          (formatTimestamp chat.create_time "date")
          (formatTimestamp chat.update_time "date")
          (countValidMessages chat) "No Updates".data } := by
    simp only [processSingleChatF, hfind, handleExistingChatF]
    rw [if_pos hle]
  rw [h1]
  refine ⟨rfl, rfl, ⟨⟨titleOr chat, entry.path,
    formatTimestamp chat.create_time "date",
    formatTimestamp chat.update_time "date",
    some (countValidMessages chat), some "No Updates".data, Option.none⟩,
    rfl, rfl,
    by
      show (some "No Updates".data).map (List.map Char.toLower) =
        some "no updates".data
      decide,
    rfl, rfl⟩, rfl, rfl, rfl, rfl⟩

/-- Witness for C4 at a concrete state: `c1` catalogued at revision 1 and
arriving again at revision 1. -/
theorem c4_witness :
    catalogFind stWithNote.catalog chatOld.id = some entryC ∧
    chatOld.update_time ≤ entryC.updateTime ∧
    (processSingleChatF 0 settings0 stWithNote chatOld Fault.none).vault =
      stWithNote.vault ∧
    (∃ e : ReportEntry,
      (processSingleChatF 0 settings0 stWithNote chatOld Fault.none).report.skipped =
        stWithNote.report.skipped ++ [e] ∧
      e.reason = some "No Updates".data ∧
      e.reason.map (List.map Char.toLower) = some "no updates".data ∧
      e.title = titleOr chatOld ∧ e.filePath = entryC.path) := by
  have h := c4_monotonic_gate 0 settings0 stWithNote chatOld entryC
    (by decide) (by decide)
  exact ⟨by decide, by decide, h.1, h.2.2.1⟩

/-! ## Claim C5: write back iff the merged text differs -/

/-- Claim C5: when merging into an existing note (the catalogued path
resolves to a file), the note is written back exactly when the merged full
text differs from the original text, with an `updated` outcome; otherwise
nothing is written and a `skipped` outcome with reason "No changes needed"
(the claim's "no changes needed" up to letter case) is recorded. -/
theorem c5_write_iff_changed (now : Nat) (st : PluginState) (chat : Chat)
    (filePath : Str) (cnt : Nat) (original : Str)
    (hfile : lookupFile st.vault filePath = some original) :
    (mergedNoteContent now chat original ≠ original →
      (updateExistingNoteF now st chat filePath cnt Fault.none).vault =
        setFile st.vault filePath (mergedNoteContent now chat original) ∧
      (∃ e : ReportEntry,
        (updateExistingNoteF now st chat filePath cnt Fault.none).report.updated =
          st.report.updated ++ [e] ∧
        e.title = titleOr chat ∧ e.filePath = filePath) ∧
      (updateExistingNoteF now st chat filePath cnt Fault.none).report.skipped =
        st.report.skipped) ∧
    (mergedNoteContent now chat original = original →
      (updateExistingNoteF now st chat filePath cnt Fault.none).vault = st.vault ∧
      (updateExistingNoteF now st chat filePath cnt Fault.none).report.updated =
        st.report.updated ∧
      (∃ e : ReportEntry,
        (updateExistingNoteF now st chat filePath cnt Fault.none).report.skipped =
          st.report.skipped ++ [e] ∧
        e.reason = some "No changes needed".data ∧
        e.reason.map (List.map Char.toLower) = some "no changes needed".data ∧
        e.title = titleOr chat ∧ e.filePath = filePath)) := by
  constructor
  · intro hne
    have h1 : updateExistingNoteF now st chat filePath cnt Fault.none =
        { st with
          vault := setFile st.vault filePath (mergedNoteContent now chat original),
          report := addUpdated st.report (titleOr chat) filePath
            (dtSp chat.create_time) (dtSp chat.update_time) cnt } := by
      simp only [updateExistingNoteF, hfile]
      rw [if_neg (by decide : ¬ (Fault.none = Fault.readNote)), if_pos hne,
        if_neg (by decide : ¬ (Fault.none = Fault.write))]
    rw [h1]
    exact ⟨rfl, ⟨⟨titleOr chat, filePath, dtSp chat.create_time,
      dtSp chat.update_time, some cnt, Option.none, Option.none⟩,
      rfl, rfl, rfl⟩, rfl⟩
  · intro heq
    have h1 : updateExistingNoteF now st chat filePath cnt Fault.none =
        { st with
          report := addSkipped st.report (titleOr chat) filePath
            (dtSp chat.create_time) (dtSp chat.update_time) cnt
            "No changes needed".data } := by
      simp only [updateExistingNoteF, hfile]
      rw [if_neg (by decide : ¬ (Fault.none = Fault.readNote)),
        if_neg (by simp [heq] : ¬ (mergedNoteContent now chat original ≠ original))]
    rw [h1]
    exact ⟨rfl, rfl, ⟨⟨titleOr chat, filePath, dtSp chat.create_time,
      dtSp chat.update_time, some cnt, some "No changes needed".data,
      Option.none⟩, rfl, rfl,
      by
        show (some "No changes needed".data).map (List.map Char.toLower) =
          some "no changes needed".data
        decide,
      rfl, rfl⟩⟩

/-- Witness for C5 at a concrete note: the conversation carries one new
message, the merged text differs, and the note is written back with an
`updated` outcome. -/
theorem c5_witness :
    lookupFile stWithNote.vault "p".data = some noteHello ∧
    mergedNoteContent 0 chatMsg noteHello ≠ noteHello ∧
    (updateExistingNoteF 0 stWithNote chatMsg "p".data 1 Fault.none).vault =
      setFile stWithNote.vault "p".data (mergedNoteContent 0 chatMsg noteHello) := by
  have h := (c5_write_iff_changed 0 stWithNote chatMsg "p".data 1 noteHello
    (by decide)).1 (by decide)
  exact ⟨by decide, by decide, h.1⟩

/-! ## Claim C3: what the report gains when a conversation throws -/

/-- Claim C3 counterexample: in a batch of one conversation whose
processing raises an exception (reading the existing note throws), the
report gains no `failed` entry at all — the final state equals the initial
state — refuting the claim that every per-conversation exception yields
exactly one `failed` entry. -/
theorem c3_counterexample :
    processConversationsF 0 settings0 stWithNote [(chatNew2, Fault.readNote)] =
      stWithNote ∧
    (processConversationsF 0 settings0 stWithNote
        [(chatNew2, Fault.readNote)]).report.failed.length = 0 := by
  constructor <;> decide

/-- Claim C3 (amended): every exception is caught at the conversation
boundary and the remaining conversations are still processed, but what the
report gains depends on where the exception arises.  (1) An exception while
creating a new note (rendering or writing) yields exactly one `failed`
entry carrying the conversation's title and timestamps, plus one
global-error entry, with no other state change.  (2) An exception during
path resolution yields only a global-error entry.  (3) An exception while
updating an existing note is swallowed: no report entry is recorded. -/
theorem c3_amended_fault_isolation :
    (∀ (now : Nat) (settings : Settings) (st : PluginState) (chat : Chat)
        (fault : Fault) (rest : List (Chat × Fault)),
      fault = Fault.render ∨ fault = Fault.write →
      catalogFind st.catalog chat.id = Option.none →
      (∃ e : ReportEntry,
        (processSingleChatF now settings st chat fault).report.failed =
          st.report.failed ++ [e] ∧
        e.title = titleOr chat ∧ e.createDate = dtSp chat.create_time ∧
        e.updateDate = dtSp chat.update_time) ∧
      (processSingleChatF now settings st chat fault).report.globalErrors.length =
        st.report.globalErrors.length + 1 ∧
      (processSingleChatF now settings st chat fault).report.created =
        st.report.created ∧
      (processSingleChatF now settings st chat fault).report.updated =
        st.report.updated ∧
      (processSingleChatF now settings st chat fault).report.skipped =
        st.report.skipped ∧
      (processSingleChatF now settings st chat fault).catalog = st.catalog ∧
      (processSingleChatF now settings st chat fault).vault = st.vault ∧
      processConversationsF now settings st ((chat, fault) :: rest) =
        processConversationsF now settings
          (processSingleChatF now settings st chat fault) rest) ∧
    (∀ (now : Nat) (settings : Settings) (st : PluginState) (chat : Chat),
      catalogFind st.catalog chat.id = Option.none →
      processSingleChatF now settings st chat Fault.folderCreate =
        { st with
          report := addError st.report
            ("Error processing chat: ".data ++ titleOr chat)
            "Failed to ensure folder exists.".data }) ∧
    (∀ (now : Nat) (settings : Settings) (st : PluginState) (chat : Chat)
        (entry : CatalogEntry),
      catalogFind st.catalog chat.id = some entry →
      entry.updateTime < chat.update_time →
      processSingleChatF now settings st chat Fault.readNote = st) := by
  refine ⟨?_, ?_, ?_⟩
  · intro now settings st chat fault rest hf hfind
    have h1 : ∀ fp, createNewNoteF now st chat fp fault =
        ({ st with
            report := addFailed st.report (titleOr chat) fp
              (dtSp chat.create_time) (dtSp chat.update_time) (faultMsg fault) },
          some (faultMsg fault)) := by
      intro fp
      rcases hf with rfl | rfl
      · simp [createNewNoteF]
      · simp [createNewNoteF]
    have hnot : ¬ (fault = Fault.folderCreate) := by
      rcases hf with rfl | rfl <;> decide
    have hex : ∃ fp, generateFilePathF st.vault settings chat.title
        chat.create_time fault = Except.ok fp := by
      apply Exists.intro
      unfold generateFilePathF
      rw [if_neg hnot]
    obtain ⟨fp, hfp⟩ := hex
    have h2 : processSingleChatF now settings st chat fault =
        { st with
          report := addError
            (addFailed st.report (titleOr chat) fp
              (dtSp chat.create_time) (dtSp chat.update_time) (faultMsg fault))
            ("Error processing chat: ".data ++ titleOr chat)
            (faultMsg fault) } := by
      simp only [processSingleChatF, hfind, hfp, h1]
    rw [h2]
    refine ⟨⟨⟨titleOr chat, fp, dtSp chat.create_time, dtSp chat.update_time,
      Option.none, Option.none, some (faultMsg fault)⟩, rfl, rfl, rfl, rfl⟩,
      by simp [addError, addFailed], rfl, rfl, rfl, rfl, rfl,
      by simp only [processConversationsF]; rw [h2]⟩
  · intro now settings st chat hfind
    simp [processSingleChatF, hfind, generateFilePathF]
  · intro now settings st chat entry hfind hlt
    simp only [processSingleChatF, hfind, handleExistingChatF]
    rw [if_neg (not_le.mpr hlt)]
    simp only [updateExistingNoteF]
    cases lookupFile st.vault entry.path <;> simp

/-- Witness for the amended C3: a new conversation whose note rendering
throws gets exactly one `failed` entry (with title and timestamps) and one
global error. -/
theorem c3_witness :
    catalogFind stWithNote.catalog chatFresh.id = Option.none ∧
    (∃ e : ReportEntry,
      (processSingleChatF 0 settings0 stWithNote chatFresh
          Fault.render).report.failed =
        stWithNote.report.failed ++ [e] ∧
      e.title = titleOr chatFresh ∧ e.createDate = dtSp chatFresh.create_time ∧
      e.updateDate = dtSp chatFresh.update_time) ∧
    (processSingleChatF 0 settings0 stWithNote chatFresh
        Fault.render).report.globalErrors.length =
      stWithNote.report.globalErrors.length + 1 := by
  have h := c3_amended_fault_isolation.1 0 settings0 stWithNote chatFresh
    Fault.render [] (Or.inl rfl) (by decide)
  exact ⟨by decide, h.1, h.2.1⟩

/-! ## Claim C7: the batch processing order -/

theorem lexLe_total : ∀ s t : Str, lexLe s t = true ∨ lexLe t s = true := by
  intro s
  induction s with
  | nil => intro t; exact Or.inl rfl
  | cons a as ih =>
    intro t
    cases t with
    | nil => exact Or.inr rfl
    | cons b bs =>
      by_cases hab : a = b
      · subst hab
        rcases ih bs with h | h
        · exact Or.inl (by simp [lexLe, h])
        · exact Or.inr (by simp [lexLe, h])
      · rcases lt_or_gt_of_ne hab with h | h
        · exact Or.inl (by simp [lexLe, hab, h])
        · refine Or.inr ?_
          have hba : ¬ b = a := fun hba => hab hba.symm
          simp [lexLe, hba, h]

theorem lexLe_trans : ∀ s t u : Str,
    lexLe s t = true → lexLe t u = true → lexLe s u = true := by
  intro s
  induction s with
  | nil => intro t u _ _; rfl
  | cons a as ih =>
    intro t u hst htu
    cases t with
    | nil => simp [lexLe] at hst
    | cons b bs =>
      cases u with
      | nil => simp [lexLe] at htu
      | cons c cs =>
        by_cases hab : a = b <;> by_cases hbc : b = c
        · subst hab; subst hbc
          simp only [lexLe, if_pos rfl] at hst htu ⊢
          exact ih bs cs hst htu
        · subst hab
          simp only [lexLe, if_pos rfl] at hst
          simp only [lexLe, if_neg hbc] at htu
          simp [lexLe, hbc, htu]
        · subst hbc
          simp only [lexLe, if_neg hab] at hst
          simp [lexLe, hab, hst]
        · simp only [lexLe, if_neg hab] at hst
          simp only [lexLe, if_neg hbc] at htu
          have hac : a < c := lt_trans (of_decide_eq_true hst) (of_decide_eq_true htu)
          have hne : a ≠ c := ne_of_lt hac
          simp [lexLe, hne, hac]

/-- Claim C7 counterexample: a selection of two files, `b.zip` from the
earlier export (time 1) and `a.zip` from the later export (time 2), is
processed in name order `a.zip` then `b.zip` — the later export first — so
the processing order is not the export-timestamp order the claim states. -/
theorem c7_counterexample :
    sortedImportFiles filesBA = [⟨"a.zip", 2⟩, ⟨"b.zip", 1⟩] ∧
    (sortedImportFiles filesBA).map FileMeta.exportTime = [2, 1] ∧
    ¬ List.Sorted (fun a b : Nat => a ≤ b)
      ((sortedImportFiles filesBA).map FileMeta.exportTime) := by
  refine ⟨by decide, by decide, ?_⟩
  rw [(by decide : (sortedImportFiles filesBA).map FileMeta.exportTime = [2, 1])]
  intro h
  exact absurd (List.rel_of_sorted_cons h 1 (List.mem_singleton_self 1)) (by decide)

/-- Claim C7 (amended): files of a multi-file selection are processed
strictly sequentially in ascending lexicographic order of their file
names (the `localeCompare` sort), which coincides with export-time order
only when the names themselves are ordered that way. -/
theorem c7_name_order (files : List FileMeta) :
    List.Sorted (fun a b : FileMeta => lexLe a.name.data b.name.data = true)
      (sortedImportFiles files) ∧
    List.Perm (sortedImportFiles files) files :=
  ⟨@List.sorted_insertionSort FileMeta
      (fun a b => lexLe a.name.data b.name.data = true) _
      ⟨fun a b => lexLe_total a.name.data b.name.data⟩
      ⟨fun _ _ _ h1 h2 => lexLe_trans _ _ _ h1 h2⟩ files,
    List.perm_insertionSort _ files⟩

/-! ## Claim C9: attribution of unrecognized author roles -/

/-- Claim C9 counterexample: a message whose author role is the present but
unrecognized value "system" is attributed to "ChatGPT" — the assistant
label — not to a generic label distinct from both the human and the
assistant labels ("Unknown" is used only when the author is absent). -/
theorem c9_counterexample :
    authorLabel (some ⟨"system"⟩) = "ChatGPT".data ∧
    authorLabel (some ⟨"assistant"⟩) = "ChatGPT".data ∧
    authorLabel (some ⟨"system"⟩) ≠ "Unknown".data ∧
    begins "#### ChatGPT, on ".data (formatMessage 0 msgSys) = true := by
  refine ⟨by decide, by decide, by decide, by decide⟩

/-- Claim C9 (amended): rendering never fails (it is total); a message
whose author role is present but is anything other than "user" is
attributed to the assistant label "ChatGPT", and the generic label
"Unknown" is used exactly when the author object is absent. -/
theorem c9_amended_labels (now : Nat) (m : ChatMessage) :
    (∀ a : Author, m.author = some a → a.role ≠ "user" →
      begins "#### ChatGPT, on ".data (formatMessage now m) = true) ∧
    (m.author = Option.none →
      begins "#### Unknown, on ".data (formatMessage now m) = true) := by
  constructor
  · intro a ha hrole
    have hlabel : authorLabel m.author = "ChatGPT".data := by
      rw [ha]; simp [authorLabel, hrole]
    unfold formatMessage msgPre headingLevelOf
    rw [hlabel]
    rw [if_neg (by decide : ¬ ("ChatGPT".data = "User".data))]
    exact begins_self_append "#### ChatGPT, on ".data _
  · intro hnone
    have hlabel : authorLabel m.author = "Unknown".data := by
      rw [hnone]; rfl
    unfold formatMessage msgPre headingLevelOf
    rw [hlabel]
    rw [if_neg (by decide : ¬ ("Unknown".data = "User".data))]
    exact begins_self_append "#### Unknown, on ".data _

/-- Witness for the amended C9 at the concrete "system"-role message. -/
theorem c9_witness :
    msgSys.author = some ⟨"system"⟩ ∧
    begins "#### ChatGPT, on ".data (formatMessage 0 msgSys) = true :=
  ⟨rfl, (c9_amended_labels 0 msgSys).1 ⟨"system"⟩ rfl (by decide)⟩

/-! ## Lemmas about the marker scanner -/

theorem begins_step (p : Char) (ps : Str) (c : Char) (cs : Str) :
    begins (p :: ps) (c :: cs) = if p = c then begins ps cs else false := rfl

theorem scanUIDs_succ (fuel : Nat) (c : Char) (rest : Str) :
    scanUIDs (fuel + 1) (c :: rest) =
      if begins uidOpen (c :: rest) then
        match captureUID (List.drop 9 rest) with
        | some (cap, rest2) => cap :: scanUIDs fuel rest2
        | Option.none => scanUIDs fuel rest
      else scanUIDs fuel rest := rfl

theorem captureUID_len : ∀ (s cap r : Str),
    captureUID s = some (cap, r) → r.length ≤ s.length := by
  intro s
  induction s with
  | nil => intro cap r h; simp [captureUID] at h
  | cons c cs ih =>
    intro cap r h
    simp only [captureUID] at h
    by_cases hb : begins closeMark (c :: cs) = true
    · rw [if_pos hb] at h
      cases h
      calc (List.drop 3 cs).length ≤ cs.length := by
            rw [List.length_drop]; omega
        _ ≤ (c :: cs).length := by simp
    · rw [if_neg hb] at h
      by_cases hc : c = '\n'
      · rw [if_pos hc] at h; exact absurd h (by simp)
      · rw [if_neg hc] at h
        rcases hcap : captureUID cs with _ | ⟨cap2, r2⟩
        · rw [hcap] at h; exact absurd h (by simp)
        · rw [hcap] at h
          have h1 : (c :: cap2, r2) = (cap, r) := by injection h
          have hr : r = r2 := (congrArg Prod.snd h1).symm
          rw [hr]
          calc r2.length ≤ cs.length := ih cap2 r2 hcap
            _ ≤ (c :: cs).length := by simp

theorem scanUIDs_fuel_eq : ∀ (f g : Nat) (s : Str),
    s.length ≤ f → s.length ≤ g → scanUIDs f s = scanUIDs g s := by
  intro f
  induction f with
  | zero =>
    intro g s hf _
    have : s = [] := List.eq_nil_of_length_eq_zero (Nat.le_zero.mp hf)
    subst this
    cases g <;> rfl
  | succ f ih =>
    intro g s hf hg
    cases s with
    | nil => cases g <;> rfl
    | cons c rest =>
      cases g with
      | zero => simp at hg
      | succ g2 =>
        rw [scanUIDs_succ, scanUIDs_succ]
        have hf2 : rest.length ≤ f := by simpa using hf
        have hg2 : rest.length ≤ g2 := by simpa using hg
        by_cases hb : begins uidOpen (c :: rest) = true
        · rw [if_pos hb, if_pos hb]
          rcases hcap : captureUID (List.drop 9 rest) with _ | ⟨cap, rest2⟩
          · exact ih g2 rest hf2 hg2
          · have hlen : rest2.length ≤ rest.length := by
              calc rest2.length ≤ (List.drop 9 rest).length :=
                    captureUID_len _ cap rest2 hcap
                _ ≤ rest.length := by rw [List.length_drop]; omega
            simp only
            rw [ih g2 rest2 (le_trans hlen hf2) (le_trans hlen hg2)]
        · rw [if_neg hb, if_neg hb]
          exact ih g2 rest hf2 hg2

theorem scanUIDs_eq_extract (f : Nat) (s : Str) (hf : s.length ≤ f) :
    scanUIDs f s = extractUIDs s :=
  scanUIDs_fuel_eq f s.length s hf le_rfl

theorem begins_uidOpen_head_false (c : Char) (rest : Str) (hc : c ≠ '<') :
    begins uidOpen (c :: rest) = false := by
  simp only [uidOpen]
  rw [begins_step, if_neg (fun h => hc h.symm)]

theorem extract_cons_not_lt (c : Char) (rest : Str) (hc : c ≠ '<') :
    extractUIDs (c :: rest) = extractUIDs rest := by
  show scanUIDs (c :: rest).length (c :: rest) = extractUIDs rest
  rw [List.length_cons, scanUIDs_succ,
    if_neg (by rw [begins_uidOpen_head_false c rest hc]; exact Bool.false_ne_true)]
  exact scanUIDs_eq_extract rest.length rest le_rfl

theorem extract_append_noLT (A B : Str) (hA : noLT A) :
    extractUIDs (A ++ B) = extractUIDs B := by
  induction A with
  | nil => rw [List.nil_append]
  | cons c A2 ih =>
    rw [List.cons_append,
      extract_cons_not_lt c (A2 ++ B) (hA c (List.mem_cons_self c A2)),
      ih (fun x hx => hA x (List.mem_cons_of_mem c hx))]

theorem extract_noLT (A : Str) (hA : noLT A) : extractUIDs A = [] := by
  have := extract_append_noLT A [] hA
  rwa [List.append_nil] at this

theorem begins_close_false (c : Char) (id B : Str)
    (hid : ∀ x ∈ id, x ≠ '>') :
    begins closeMark (c :: (id ++ (closeMark ++ B))) = false := by
  match id with
  | [] =>
    rw [List.nil_append]
    simp only [closeMark, List.cons_append, List.nil_append]
    rw [begins_step]
    have h2 : begins ('-' :: '-' :: '>' :: [])
        (' ' :: '-' :: '-' :: '>' :: B) = false := by
      rw [begins_step, if_neg (by decide)]
    rw [h2, ite_self]
  | [a] =>
    simp only [closeMark, List.cons_append, List.nil_append]
    rw [begins_step]
    have h2 : begins ('-' :: '-' :: '>' :: [])
        (a :: ' ' :: '-' :: '-' :: '>' :: B) = false := by
      rw [begins_step]
      have h3 : begins ('-' :: '>' :: [])
          (' ' :: '-' :: '-' :: '>' :: B) = false := by
        rw [begins_step, if_neg (by decide)]
      rw [h3, ite_self]
    rw [h2, ite_self]
  | [a, b] =>
    simp only [closeMark, List.cons_append, List.nil_append]
    rw [begins_step]
    have h2 : begins ('-' :: '-' :: '>' :: [])
        (a :: b :: ' ' :: '-' :: '-' :: '>' :: B) = false := by
      rw [begins_step]
      have h3 : begins ('-' :: '>' :: [])
          (b :: ' ' :: '-' :: '-' :: '>' :: B) = false := by
        rw [begins_step]
        have h4 : begins ('>' :: [])
            (' ' :: '-' :: '-' :: '>' :: B) = false := by
          rw [begins_step, if_neg (by decide)]
        rw [h4, ite_self]
      rw [h3, ite_self]
    rw [h2, ite_self]
  | a :: b :: d :: id3 =>
    have hd : d ≠ '>' := hid d (by simp)
    simp only [closeMark, List.cons_append, List.nil_append]
    rw [begins_step]
    have h2 : begins ('-' :: '-' :: '>' :: [])
        (a :: b :: d :: (id3 ++ ' ' :: '-' :: '-' :: '>' :: B)) = false := by
      rw [begins_step]
      have h3 : begins ('-' :: '>' :: [])
          (b :: d :: (id3 ++ ' ' :: '-' :: '-' :: '>' :: B)) = false := by
        rw [begins_step]
        have h4 : begins ('>' :: [])
            (d :: (id3 ++ ' ' :: '-' :: '-' :: '>' :: B)) = false := by
          rw [begins_step, if_neg (fun h => hd h.symm)]
        rw [h4, ite_self]
      rw [h3, ite_self]
    rw [h2, ite_self]

theorem captureUID_exact : ∀ (id B : Str),
    (∀ x ∈ id, x ≠ '>' ∧ x ≠ '\n') →
    captureUID (id ++ (closeMark ++ B)) = some (id, B) := by
  intro id
  induction id with
  | nil =>
    intro B _
    rw [List.nil_append]
    show captureUID (' ' :: ('-' :: '-' :: '>' :: B)) = some ([], B)
    have hb : begins closeMark (' ' :: ('-' :: '-' :: '>' :: B)) = true :=
      begins_self_append closeMark B
    simp only [captureUID]
    rw [if_pos hb]
    rfl
  | cons a id2 ih =>
    intro B hid
    have ha : a ≠ '>' ∧ a ≠ '\n' := hid a (List.mem_cons_self a id2)
    have hid2 : ∀ x ∈ id2, x ≠ '>' ∧ x ≠ '\n' :=
      fun x hx => hid x (List.mem_cons_of_mem a hx)
    rw [List.cons_append]
    simp only [captureUID]
    rw [if_neg (by
      rw [begins_close_false a id2 B (fun x hx => (hid2 x hx).1)]
      exact Bool.false_ne_true)]
    rw [if_neg ha.2, ih B hid2]

theorem extract_match_step (c : Char) (rest cap rest2 : Str)
    (hb : begins uidOpen (c :: rest) = true)
    (hcap : captureUID (List.drop 9 rest) = some (cap, rest2)) :
    extractUIDs (c :: rest) = cap :: extractUIDs rest2 := by
  show scanUIDs ((c :: rest).length) (c :: rest) = _
  rw [List.length_cons, scanUIDs_succ, if_pos hb, hcap]
  show cap :: scanUIDs rest.length rest2 = cap :: extractUIDs rest2
  have hlen : rest2.length ≤ rest.length := by
    calc rest2.length ≤ (List.drop 9 rest).length :=
          captureUID_len _ cap rest2 hcap
      _ ≤ rest.length := by rw [List.length_drop]; omega
  rw [scanUIDs_eq_extract rest.length rest2 hlen]

theorem extract_marker (id B : Str)
    (hid : ∀ x ∈ id, x ≠ '>' ∧ x ≠ '\n') :
    extractUIDs (uidOpen ++ (id ++ (closeMark ++ B))) = id :: extractUIDs B := by
  have hshape : uidOpen ++ (id ++ (closeMark ++ B)) =
      '<' :: ('!' :: '-' :: '-' :: ' ' :: 'U' :: 'I' :: 'D' :: ':' :: ' ' ::
        (id ++ (closeMark ++ B))) := rfl
  rw [hshape]
  exact extract_match_step '<'
    ('!' :: '-' :: '-' :: ' ' :: 'U' :: 'I' :: 'D' :: ':' :: ' ' ::
      (id ++ (closeMark ++ B))) id B
    (begins_self_append uidOpen (id ++ (closeMark ++ B)))
    (captureUID_exact id B hid)

/-! ## No `<` occurs in the rendered text around the markers -/

theorem noLT_of_noLTb {s : Str} (h : noLTb s = true) : noLT s := by
  intro c hc
  have := List.all_eq_true.mp h c hc
  simpa using this

theorem noLT_append {A B : Str} (hA : noLT A) (hB : noLT B) : noLT (A ++ B) :=
  fun c hc => (List.mem_append.mp hc).elim (hA c) (hB c)

theorem dtAt_noLT (t : Nat) : noLT (dtAt t) :=
  fun c hc => (dtAt_safe t c hc).1

theorem authorLabel_noLT (a : Option Author) : noLT (authorLabel a) := by
  cases a with
  | none => decide
  | some x =>
    by_cases h : x.role = "user" <;> simp [authorLabel, h] <;> decide

theorem headingLevelOf_noLT (m : ChatMessage) : noLT (headingLevelOf m) := by
  by_cases h : authorLabel m.author = "User".data <;>
    simp [headingLevelOf, h] <;> decide

theorem quoteCharOf_noLT (m : ChatMessage) : noLT (quoteCharOf m) := by
  by_cases h : authorLabel m.author = "User".data <;>
    simp [quoteCharOf, h] <;> decide

theorem msgTimeStr_noLT (now : Nat) (m : ChatMessage) :
    noLT (msgTimeStr now m) := by
  intro c hc
  simp only [msgTimeStr] at hc
  rcases List.mem_append.mp hc with h1 | h1
  · rcases List.mem_append.mp h1 with h2 | h2
    · exact (formatTimestamp_safe _ "date" (by decide) c h2).1
    · exact ((by decide : ∀ x ∈ " at ".data, charSafe x) c h2).1
  · exact (formatTimestamp_safe _ "time" (by decide) c h1).1

theorem msgText_noLT (parts : List ContentPart)
    (hp : ∀ p ∈ parts, noLTb (partText p) = true) :
    noLT (msgText parts) := by
  intro c hc
  rcases mem_joinLines hc with h1 | ⟨l, hl, hcl⟩
  · subst h1; decide
  · rcases List.mem_map.mp hl with ⟨p, hpmem, hpl⟩
    subst hpl
    exact noLT_of_noLTb (hp p (List.mem_of_mem_filter hpmem)) c hcl

theorem quoteLines_noLT (qc text : Str) (hqc : noLT qc) (ht : noLT text) :
    noLT (quoteLines qc text) := by
  intro c hc
  rcases mem_joinLines hc with h1 | ⟨l, hl, hcl⟩
  · subst h1; decide
  · rcases List.mem_map.mp hl with ⟨l0, hl0, hll⟩
    subst hll
    rcases List.mem_append.mp hcl with h2 | h2
    · exact hqc c h2
    · rcases List.mem_cons.mp h2 with h3 | h3
      · subst h3; decide
      · exact ht c (mem_splitLines hl0 c h3)

theorem msgBody_noLT (m : ChatMessage) (hp : partsNoLTb m = true) :
    noLT (msgBody m) := by
  rcases hc : m.content with _ | c
  · simp only [msgBody, hc]
    exact noLT_append (quoteCharOf_noLT m)
      (by decide : noLT " [No content]".data)
  · rcases hps : c.parts with _ | parts
    · simp only [msgBody, hc, hps]
      exact noLT_append (quoteCharOf_noLT m)
        (by decide : noLT " [No content]".data)
    · have hp2 : ∀ p ∈ parts, noLTb (partText p) = true := by
        simp only [partsNoLTb, hc, hps] at hp
        exact fun p hmem => List.all_eq_true.mp hp p hmem
      simp only [msgBody, hc, hps]
      by_cases hne : msgText parts ≠ []
      · rw [if_pos hne]
        exact quoteLines_noLT _ _ (quoteCharOf_noLT m) (msgText_noLT parts hp2)
      · rw [if_neg hne]
        exact noLT_append (quoteCharOf_noLT m)
          (by decide : noLT " [No text content]".data)

theorem msgPre_noLT (now : Nat) (m : ChatMessage) (hp : partsNoLTb m = true) :
    noLT (msgPre now m) := by
  unfold msgPre
  refine noLT_append (noLT_append (noLT_append (noLT_append (noLT_append
    (noLT_append (headingLevelOf_noLT m) ?_)
    (by decide : noLT ", on ".data))
    (msgTimeStr_noLT now m))
    (by decide : noLT ";\n".data))
    (msgBody_noLT m hp))
    (by decide : noLT ['\n'])
  intro c hcm
  rcases List.mem_cons.mp hcm with h1 | h1
  · subst h1; decide
  · exact authorLabel_noLT m.author c h1

theorem msgPost_noLT (m : ChatMessage) : noLT (msgPost m) := by
  by_cases h : authorLabel m.author = "ChatGPT".data <;>
    simp [msgPost, h] <;> decide

theorem formatTitle_noLT (title : Str) (ht : noLT title) :
    noLT (formatTitle title) := by
  unfold formatTitle
  by_cases h : title = []
  · rw [if_pos h]; decide
  · rw [if_neg h]; exact ht

theorem generateHeader_noLT (title cid : Str) (t1 t2 : Nat)
    (ht : noLT title) (hc2 : noLT cid) :
    noLT (generateHeader title cid (dtAt t1) (dtAt t2)) := by
  intro c hcm
  simp only [generateHeader, List.mem_append] at hcm
  rcases hcm with
    ((((((((((((((((h | h) | h) | h) | h) | h) | h) | h) | h) | h) | h) | h)
      | h) | h) | h) | h) | h)
  all_goals
    first
    | exact ht c h
    | exact hc2 c h
    | exact dtAt_noLT t1 c h
    | exact dtAt_noLT t2 c h
    | exact noLT_of_noLTb (by decide) c h

/-! ## Claim C6: scanning a rendered note recovers the valid message ids -/

theorem genMsgs_scan (now : Nat) : ∀ (mapping : List (Str × MappingNode)),
    (∀ pr ∈ mapping, nodeSafeB pr.2 = true) →
    extractUIDs (genMsgs now mapping) =
      mapping.filterMap (fun pr =>
        match pr.2.message with
        | some m => if isValidMessage m then some (ridOf m) else Option.none
        | Option.none => Option.none) := by
  intro mapping
  induction mapping with
  | nil => intro _; rfl
  | cons pr rest ih =>
    intro h
    have hnode := h pr (List.mem_cons_self pr rest)
    have hrest := fun x hx => h x (List.mem_cons_of_mem pr hx)
    obtain ⟨k, node⟩ := pr
    rcases hmsg : node.message with _ | m
    · simp only [genMsgs, hmsg, List.nil_append, List.filterMap_cons]
      exact ih hrest
    · by_cases hv : isValidMessage m = true
      · simp only [nodeSafeB, hmsg, hv, Bool.not_true, Bool.false_or] at hnode
        rw [Bool.and_eq_true, Bool.and_eq_true] at hnode
        obtain ⟨⟨hid1, hid2⟩, hp⟩ := hnode
        have hidne : m.id ≠ [] := of_decide_eq_true hid1
        have hrid : ridOf m = m.id := by unfold ridOf; rw [if_neg hidne]
        have hridsafe : ∀ x ∈ ridOf m, x ≠ '>' ∧ x ≠ '\n' := by
          rw [hrid]
          intro x hx
          have hb := List.all_eq_true.mp hid2 x hx
          constructor
          · intro he; simp [he] at hb
          · intro he; simp [he] at hb
        simp only [genMsgs, hmsg, hv, if_true]
        simp only [formatMessage, List.append_assoc]
        rw [extract_append_noLT _ _ (msgPre_noLT now m hp)]
        rw [extract_marker (ridOf m) _ hridsafe]
        rw [extract_append_noLT _ _ (msgPost_noLT m)]
        rw [ih hrest]
        simp [List.filterMap_cons, hmsg, hv]
      · have hvf : isValidMessage m = false := by
          revert hv; cases isValidMessage m <;> simp
        simp only [genMsgs, hmsg, hvf, Bool.false_eq_true, if_false,
          List.nil_append, List.filterMap_cons]
        rw [ih hrest]

/-- Claim C6 (amended): rendering a full note from a conversation and then
scanning it for message markers yields exactly the rendered ids of the
conversation's valid messages, in stored order (hence the same set with
the same cardinality), provided the title and conversation id contain no
`<`, and every valid message has a non-empty id free of `>` and newline
characters and part texts free of `<`.  (The unamended claim fails when a
message text itself contains a marker, see the counterexample.) -/
theorem c6_roundtrip_amended (now : Nat) (chat : Chat)
    (ht : noLTb chat.title = true)
    (hcid : noLTb chat.id = true)
    (hnodes : ∀ pr ∈ chat.mapping, nodeSafeB pr.2 = true) :
    extractUIDs (generateMarkdownContent now chat) = validIds chat := by
  unfold generateMarkdownContent
  rw [extract_append_noLT _ _ (generateHeader_noLT (formatTitle chat.title)
    chat.id chat.create_time chat.update_time
    (formatTitle_noLT chat.title (noLT_of_noLTb ht)) (noLT_of_noLTb hcid))]
  exact genMsgs_scan now chat.mapping hnodes

set_option maxRecDepth 4000 in
/-- Claim C6 counterexample: a conversation with a single valid message
`m1` whose text contains the line `<!-- UID: zzz -->`.  Scanning the
rendered note yields the ids `zzz` and `m1` — not the conversation's valid
message id set, and with a different cardinality. -/
theorem c6_counterexample :
    validIds convEvil = ["m1".data] ∧
    extractUIDs (generateMarkdownContent 0 convEvil) =
      ["zzz".data, "m1".data] ∧
    extractUIDs (generateMarkdownContent 0 convEvil) ≠ validIds convEvil := by
  refine ⟨by decide, by decide, by decide⟩

/-- Witness for the amended C6 at a concrete one-message conversation. -/
theorem c6_witness :
    noLTb chatMsg.title = true ∧
    noLTb chatMsg.id = true ∧
    (∀ pr ∈ chatMsg.mapping, nodeSafeB pr.2 = true) ∧
    extractUIDs (generateMarkdownContent 0 chatMsg) = validIds chatMsg :=
  ⟨by decide, by decide, by decide,
    c6_roundtrip_amended 0 chatMsg (by decide) (by decide) (by decide)⟩

/-! ## Claim C8: invalid messages are dropped, not placeholder-rendered -/

theorem validOutCount : ∀ (mapping : List (Str × MappingNode)),
    (mapping.filterMap (fun pr =>
        match pr.2.message with
        | some m => if isValidMessage m then some (ridOf m) else Option.none
        | Option.none => Option.none)).length =
      (mapping.filter (fun pr => isValidOptMessage pr.2.message)).length := by
  intro mapping
  induction mapping with
  | nil => rfl
  | cons pr rest ih =>
    rcases hmsg : pr.2.message with _ | m
    · simp [List.filterMap_cons, List.filter_cons, hmsg, isValidOptMessage, ih]
    · by_cases hv : isValidMessage m = true
      · simp [List.filterMap_cons, List.filter_cons, hmsg, isValidOptMessage,
          hv, ih]
      · have hvf : isValidMessage m = false := by
          revert hv; cases isValidMessage m <;> simp
        simp [List.filterMap_cons, List.filter_cons, hmsg, isValidOptMessage,
          hvf, ih]

/-- Claim C8 (amended): a message with unrenderable or missing content is
not rendered at all — it is excluded by the validity filter and contributes
nothing to the note (no placeholder block), so the number of rendered
message blocks equals the number of VALID messages, not the conversation's
message count.  The placeholder-with-marker behaviour exists only inside
`formatMessage` for a content-less message, a path the full renderer never
reaches. -/
theorem c8_amended_drop_invalid :
    (∀ (now : Nat) (pre post : List (Str × MappingNode)) (k : Str)
        (node : MappingNode),
      isValidOptMessage node.message = false →
      genMsgs now (pre ++ (k, node) :: post) = genMsgs now (pre ++ post)) ∧
    (∀ (now : Nat) (mapping : List (Str × MappingNode)),
      (∀ pr ∈ mapping, nodeSafeB pr.2 = true) →
      (extractUIDs (genMsgs now mapping)).length =
        (mapping.filter (fun pr => isValidOptMessage pr.2.message)).length) ∧
    (∀ (now : Nat) (m : ChatMessage), m.content = Option.none →
      msgBody m = quoteCharOf m ++ " [No content]".data ∧
      formatMessage now m =
        msgPre now m ++ uidOpen ++ ridOf m ++ closeMark ++ msgPost m) := by
  refine ⟨?_, ?_, ?_⟩
  · intro now pre post k node hinv
    induction pre with
    | nil =>
      simp only [List.nil_append]
      rcases hmsg : node.message with _ | m
      · simp [genMsgs, hmsg]
      · have hvf : isValidMessage m = false := by
          simpa [isValidOptMessage, hmsg] using hinv
        simp [genMsgs, hmsg, hvf]
    | cons q pre2 ih =>
      obtain ⟨qk, qn⟩ := q
      simp only [List.cons_append, genMsgs, List.append_eq]
      rw [ih]
  · intro now mapping h
    rw [genMsgs_scan now mapping h]
    exact validOutCount mapping
  · intro now m hc
    constructor
    · simp [msgBody, hc]
    · rfl

/-- Claim C8 counterexample: a conversation consisting of one message with
missing content renders zero message blocks (no placeholder marker), while
the conversation's message count is 1. -/
theorem c8_counterexample :
    genMsgs 0 [("n1".data, nodeNoContent)] = [] ∧
    ([("n1".data, nodeNoContent)] : List (Str × MappingNode)).length = 1 := by
  constructor <;> decide

/-- Witness for the amended C8: dropping a content-less node from a
mapping with one valid message leaves the rendered text unchanged, and the
rendered-block count equals the valid-message count (1, not 2). -/
theorem c8_witness :
    isValidOptMessage nodeNoContent.message = false ∧
    genMsgs 0 ([("a".data, nodeHi)] ++ ("n1".data, nodeNoContent) :: []) =
      genMsgs 0 ([("a".data, nodeHi)] ++ []) ∧
    (extractUIDs (genMsgs 0 [("a".data, nodeHi),
        ("n1".data, nodeNoContent)])).length = 1 := by
  have h1 := c8_amended_drop_invalid.1 0 [("a".data, nodeHi)] []
    "n1".data nodeNoContent (by decide)
  have h2 := c8_amended_drop_invalid.2.1 0
    [("a".data, nodeHi), ("n1".data, nodeNoContent)] (by decide)
  exact ⟨by decide, h1, by rw [h2]; decide⟩
